import Mathlib

/-!
Shallow embedding of the LabelIt backend (src/backend.py, src/translations.py).

The persistence layer is modelled as explicit in-memory table rows; SQLite
statements are translated to list operations with the same semantics.
Timestamps are modelled as natural numbers supplied by the caller (the code
calls datetime.now()), and generated image ids (uuid4) are likewise inputs.
-/

namespace LabelIt

/-! ### Python string primitives used by backend.py -/

/-- Whitespace characters removed by the Python str.strip() used in
create_user (ASCII whitespace; backend inputs are form fields). -/
def pyIsSpace (c : Char) : Bool :=
  c = ' ' || c = '\t' || c = '\n' || c = '\r' || c = '\x0b' || c = '\x0c'

/-- Python str.strip(): drop whitespace from both ends. -/
def pyStrip (s : String) : String :=
  ⟨((s.toList.dropWhile pyIsSpace).reverse.dropWhile pyIsSpace).reverse⟩

/-- Python s[:n]: the first n characters of a string. -/
def pyTake (n : Nat) (s : String) : String :=
  ⟨s.toList.take n⟩

/-- Python str.replace(c, ""): removing every occurrence of one character. -/
def removeChar (c : Char) (s : String) : String :=
  ⟨s.toList.filter (fun x => x ≠ c)⟩

/-- Python str.isalnum() restricted to ASCII: nonempty and every character
alphanumeric.  (The repository only feeds ASCII usernames through this.) -/
def pyIsAlnumStr (s : String) : Bool :=
  !s.toList.isEmpty && s.toList.all Char.isAlphanum

/-! ### users table and create_user (backend.py lines 214-261) -/

/-- A row of the users table.  Only the columns the verified claims read are
kept (username is UNIQUE NOT NULL, password NOT NULL); the profile metadata
columns (preferred_language, full_name, email, age, timestamps, is_active)
play no role in any claim. -/
structure UserRow where
  username : String
  password : String
  deriving Repr, DecidableEq

/-- BackendService.create_user: strips both inputs, validates them in the
source order, then INSERTs; the UNIQUE constraint on username raises
IntegrityError, caught and reported as "Username already exists".
Returns ((success, reason), users table after the call). -/
def create_user (username password : String) (users : List UserRow) :
    (Bool × String) × List UserRow :=
  let username := pyStrip username
  let password := pyStrip password
  if username = "" || password = "" then
    ((false, "Username and password are required"), users)
  else if username.length < 3 then
    ((false, "Username must be at least 3 characters"), users)
  else if password.length < 3 then
    ((false, "Password must be at least 3 characters"), users)
  else if !pyIsAlnumStr (removeChar '-' (removeChar '_' username)) then
    ((false, "Username can only contain letters, numbers, underscore, and hyphen"), users)
  else if username ∈ users.map UserRow.username then
    ((false, "Username already exists"), users)
  else
    ((true, "User created successfully"), users ++ [⟨username, password⟩])

/-! ### images / labels / user_activities tables (backend.py schema lines 60-130) -/

/-- A row of the images table.  Columns not read by any claim (geolocation,
file metadata, verification fields, view_count) are elided; description and
image_path keep their SQL nullability as Option. -/
structure ImageRow where
  id : String
  title : String
  description : Option String
  category : String
  image_path : Option String
  uploaded_by : String
  uploaded_at : Nat
  label_count : Nat
  deriving Repr, DecidableEq

/-- A row of the labels table (autoincrement id; UNIQUE(image_id, text,
language); verification columns elided). -/
structure LabelRow where
  id : Nat
  image_id : String
  text : String
  language : String
  added_by : String
  added_at : Nat
  deriving Repr, DecidableEq

/-- A row of the user_activities gamification ledger. -/
structure ActivityRow where
  user_id : String
  activity_type : String
  descr : String
  points_earned : Int
  deriving Repr, DecidableEq

/-- The database state.  The analytics event table is append-only and read by
no claim, so it is not carried.  nextLabelId models the labels AUTOINCREMENT
counter. -/
structure DB where
  users : List UserRow
  images : List ImageRow
  labels : List LabelRow
  activities : List ActivityRow
  nextLabelId : Nat
  deriving Repr, DecidableEq

/-- The freshly initialised database: all tables empty. -/
def initDB : DB := ⟨[], [], [], [], 1⟩

/-- Whether a labels row has the given UNIQUE key (image_id, text, language). -/
def labelKeyMatches (r : LabelRow) (image_id text language : String) : Bool :=
  r.image_id = image_id && r.text = text && r.language = language

/-- INSERT OR REPLACE INTO labels (image_id, text, language, added_by,
added_at): any row holding the same UNIQUE key triple is deleted, and a fresh
row with a new autoincrement id is inserted. -/
def upsertLabel (labels : List LabelRow) (newId : Nat)
    (image_id text language added_by : String) (now : Nat) : List LabelRow :=
  labels.filter (fun r => !labelKeyMatches r image_id text language) ++
    [⟨newId, image_id, text, language, added_by, now⟩]

/-- SELECT COUNT(*) FROM labels WHERE image_id = ?. -/
def countLabelsFor (labels : List LabelRow) (image_id : String) : Nat :=
  (labels.filter (fun r => r.image_id = image_id)).length

/-- BackendService._record_user_activity: appends a gamification ledger row. -/
def record_user_activity (acts : List ActivityRow)
    (user_id activity_type descr : String) (points : Int) : List ActivityRow :=
  acts ++ [⟨user_id, activity_type, descr, points⟩]

/-- BackendService.add_image: inserts the image row (the uuid4 id and the
clock are inputs here) and credits the uploader 10 activity points.  Returns
the new state and the generated id. -/
def add_image (db : DB) (image_id title : String) (description : Option String)
    (category image_path uploaded_by : String) (now : Nat) : DB × String :=
  let images := db.images ++
    [⟨image_id, title, description, category, some image_path, uploaded_by, now, 0⟩]
  let acts := record_user_activity db.activities uploaded_by "image_upload"
    ("Uploaded image: " ++ title) 10
  ({ db with images := images, activities := acts }, image_id)

/-- BackendService.add_label: INSERT OR REPLACE of the label row, then
UPDATE images SET label_count = (SELECT COUNT(*) FROM labels WHERE
image_id = ?) WHERE id = ?, then 5 activity points for the contributor.
The connections opened by get_connection never execute PRAGMA foreign_keys=ON
(only the init_database connection does, and the pragma is per-connection in
SQLite), so the insert is NOT checked against the images or users tables. -/
def add_label (db : DB) (image_id text language added_by : String) (now : Nat) :
    DB × Bool :=
  let labels := upsertLabel db.labels db.nextLabelId image_id text language added_by now
  let images := db.images.map (fun i =>
    if i.id = image_id then { i with label_count := countLabelsFor labels image_id } else i)
  let acts := record_user_activity db.activities added_by "label_add"
    ("Added label: " ++ pyTake 50 text ++ "...") 5
  let db2 : DB :=
    { db with
      labels := labels
      images := images
      activities := acts
      nextLabelId := db.nextLabelId + 1 }
  (db2, true)

/-- The service's mutating operations.  create_user mutates only users;
add_image only images/activities; add_label only labels, images.label_count
and activities.  The remaining service methods (authenticate_user, which
touches last_login only, log_event, and all the read/aggregate/export
methods) leave these four tables untouched. -/
inductive Op where
  | createUser (username password : String)
  | addImage (image_id title : String) (description : Option String)
      (category image_path uploaded_by : String) (now : Nat)
  | addLabel (image_id text language added_by : String) (now : Nat)
  deriving Repr, DecidableEq

/-- One service operation applied to the database state. -/
def step (db : DB) : Op → DB
  | .createUser u p => { db with users := (create_user u p db.users).2 }
  | .addImage id title descr cat path up now =>
      (add_image db id title descr cat path up now).1
  | .addLabel id text lang by_ now => (add_label db id text lang by_ now).1

/-- The state reached from a fresh database by a sequence of service
operations. -/
def runOps (ops : List Op) : DB := ops.foldl step initDB

/-! ### get_images (backend.py lines 387-426) -/

/-- SQLite LIKE pattern matching: % matches any run of characters, _ matches
one character, and plain characters compare case-insensitively for ASCII
(SQLite's default LIKE folds only ASCII case). -/
def likeMatch : List Char → List Char → Bool
  | [], [] => true
  | [], _ :: _ => false
  | '%' :: ps, s =>
      likeMatch ps s || (match s with | [] => false | _ :: rest => likeMatch ('%' :: ps) rest)
  | '_' :: _, [] => false
  | '_' :: ps, _ :: rest => likeMatch ps rest
  | _ :: _, [] => false
  | p :: ps, c :: rest => (p.toLower = c.toLower) && likeMatch ps rest
  termination_by ps s => ps.length + s.length

/-- SQL: value LIKE pattern. -/
def sqlLike (value pattern : String) : Bool :=
  likeMatch pattern.toList value.toList

/-- The pattern get_images builds for the search filter: %search%. -/
def searchPattern (search : String) : String :=
  "%" ++ search ++ "%"

/-- Python truthiness of the optional string filters: None and the empty
string both mean "filter absent" (the code tests "if category:" etc.). -/
def activeFilter (o : Option String) : Option String :=
  match o with
  | none => none
  | some s => if s = "" then none else some s

/-- The WHERE clause of get_images, evaluated on one row of
images LEFT JOIN labels (the label slot is none on the padding row produced
for an image with no labels; SQL comparisons against NULL are not true). -/
def whereClause (category language search : Option String)
    (i : ImageRow) (ol : Option LabelRow) : Bool :=
  (match category with
   | none => true
   | some c => i.category = c) &&
  (match language with
   | none => true
   | some lang => match ol with | none => false | some l => l.language = lang) &&
  (match search with
   | none => true
   | some s =>
      sqlLike i.title (searchPattern s) ||
      (match i.description with | none => false | some d => sqlLike d (searchPattern s)) ||
      (match ol with | none => false | some l => sqlLike l.text (searchPattern s)))

/-- The LEFT JOIN slots for one image: one none-padded row when the image has
no labels, otherwise one row per matching label. -/
def joinSlots (labels : List LabelRow) (i : ImageRow) : List (Option LabelRow) :=
  let ls := labels.filter (fun l => l.image_id = i.id)
  match ls with
  | [] => [none]
  | _ => ls.map some

/-- Insertion into a list kept in descending uploaded_at order, realising
ORDER BY i.uploaded_at DESC. -/
def insertByUploadedDesc {α : Type} (key : α → Nat) (r : α) : List α → List α
  | [] => [r]
  | x :: xs => if key x ≤ key r then r :: x :: xs else x :: insertByUploadedDesc key r xs

/-- Sorting by descending key (insertion sort; SQL leaves the tie order
unspecified, any descending order realises ORDER BY ... DESC). -/
def sortByKeyDesc {α : Type} (key : α → Nat) : List α → List α
  | [] => []
  | x :: xs => insertByUploadedDesc key x (sortByKeyDesc key xs)

/-- One row of the get_images result set: the image columns plus
COUNT(l.id) AS total_labels and GROUP_CONCAT(DISTINCT l.language) AS
languages (modelled as the duplicate-free list of languages). -/
structure ImageResult where
  image : ImageRow
  total_labels : Nat
  languages : List String
  deriving Repr, DecidableEq

/-- The group row produced for one image: the label slots surviving the WHERE
clause; COUNT(l.id) counts the non-NULL slots. -/
def imageGroup (db : DB) (category language search : Option String)
    (i : ImageRow) : List (Option LabelRow) :=
  (joinSlots db.labels i).filter (whereClause category language search i)

/-- The result row assembled for one surviving image group: the image
columns, COUNT(l.id) over the surviving slots, and the distinct languages
among them. -/
def imageResultOf (db : DB) (category language search : Option String)
    (i : ImageRow) : ImageResult :=
  { image := i
    total_labels := ((imageGroup db category language search i).filter Option.isSome).length
    languages := (((imageGroup db category language search i).filterMap id).map
      LabelRow.language).dedup }

/-- BackendService.get_images: LEFT JOIN, WHERE over the supplied filters
(after Python truthiness), GROUP BY i.id (image ids are the primary key),
ORDER BY uploaded_at DESC, LIMIT.  An image appears iff at least one of its
joined rows survives the WHERE clause. -/
def get_images (db : DB) (category language search : Option String)
    (limit : Nat) : List ImageResult :=
  let category := activeFilter category
  let language := activeFilter language
  let search := activeFilter search
  let grouped := db.images.filterMap (fun i =>
    if (imageGroup db category language search i).isEmpty then none
    else some (imageResultOf db category language search i))
  let sorted := sortByKeyDesc (fun r => r.image.uploaded_at) grouped
  sorted.take limit

/-! ### get_user_stats (backend.py lines 486-540) -/

/-- SELECT COALESCE(SUM(points_earned), 0) FROM user_activities WHERE
user_id = ?. -/
def sumPoints (acts : List ActivityRow) (u : String) : Int :=
  ((acts.filter (fun a => a.user_id = u)).map ActivityRow.points_earned).sum

/-- The user_activities user ids as grouped by GROUP BY user_id. -/
def ledgerUsers (acts : List ActivityRow) : List String :=
  (acts.map ActivityRow.user_id).dedup

/-- The statistics get_user_stats assembles for one user. -/
structure UserStats where
  images_uploaded : Nat
  labels_added : Nat
  languages_contributed : Nat
  categories_contributed : Nat
  total_points : Int
  user_rank : Nat
  deriving Repr, DecidableEq

/-- BackendService.get_user_stats: per-user counts, the COALESCEd point sum,
and the rank query SELECT COUNT(*) + 1 FROM (SELECT user_id,
SUM(points_earned) AS total_points FROM user_activities GROUP BY user_id
HAVING total_points > (user's own sum)). -/
def get_user_stats (db : DB) (username : String) : UserStats :=
  { images_uploaded := (db.images.filter (fun i => i.uploaded_by = username)).length
    labels_added := (db.labels.filter (fun l => l.added_by = username)).length
    languages_contributed :=
      (((db.labels.filter (fun l => l.added_by = username)).map LabelRow.language).dedup).length
    categories_contributed :=
      (((db.images.filter (fun i => i.uploaded_by = username)).map ImageRow.category).dedup).length
    total_points := sumPoints db.activities username
    user_rank := 1 +
      ((ledgerUsers db.activities).filter
        (fun u => sumPoints db.activities username < sumPoints db.activities u)).length }

/-! ### create_images_zip (backend.py lines 634-661) -/

/-- Index of the last occurrence of a character in a list, if any. -/
def lastIdxOf (c : Char) : List Char → Option Nat
  | [] => none
  | x :: xs =>
      match lastIdxOf c xs with
      | some i => some (i + 1)
      | none => if x = c then some 0 else none

/-- The basename of a POSIX path: everything after the last slash. -/
def pyBasename (path : String) : String :=
  match lastIdxOf '/' path.toList with
  | none => path
  | some i => ⟨path.toList.drop (i + 1)⟩

/-- os.path.splitext(path)[1]: the extension starting at the last dot of the
basename, empty when the basename has no dot or consists of leading dots up
to that dot (CPython skips leading dots, so ".bashrc" has no extension). -/
def splitextExt (path : String) : String :=
  let base := (pyBasename path).toList
  match lastIdxOf '.' base with
  | none => ""
  | some i => if (base.take i).all (fun c => c = '.') then "" else ⟨base.drop i⟩

/-- The archive path create_images_zip builds for one image row:
f"{category}/{uploaded_by}/{title[:50]}{ext}" — only the title component is
truncated to 50 characters. -/
def archivePath (i : ImageRow) (path : String) : String :=
  i.category ++ "/" ++ i.uploaded_by ++ "/" ++ pyTake 50 i.title ++ splitextExt path

/-- BackendService.create_images_zip: SELECT ... FROM images WHERE image_path
IS NOT NULL, then for each row whose file exists on disk (the fileExists
oracle models os.path.exists) write it under archivePath.  The result is the
list of (archive entry name, source path) pairs written to the zip; rows with
a missing file are skipped. -/
def create_images_zip (db : DB) (fileExists : String → Bool) :
    List (String × String) :=
  db.images.filterMap (fun i =>
    match i.image_path with
    | none => none
    | some p => if fileExists p then some (archivePath i p, p) else none)

/-! ### get_translation (translations.py lines 204-221) -/

/-- Python str.title() for ASCII: the first character of every maximal run of
letters is uppercased and the rest of the run lowercased. -/
def pyTitleGo : Bool → List Char → List Char
  | _, [] => []
  | prevCased, c :: cs =>
      if c.isAlpha then
        (if prevCased then c.toLower else c.toUpper) :: pyTitleGo true cs
      else
        c :: pyTitleGo false cs

/-- key.replace(&apos;_&apos;, &apos; &apos;).title(): the humanized fallback. -/
def humanizeKey (key : String) : String :=
  ⟨pyTitleGo false (key.toList.map (fun c => if c = '_' then ' ' else c))⟩

/-- translations.get_translation over a translation table (an association
list language ↦ (key ↦ string), modelling the TRANSLATIONS dict): the key in
the requested language when present, else the key in the English table, else
the supplied default if truthy (Python "default or ..."), else the humanized
key. -/
def get_translation (translations : List (String × List (String × String)))
    (key language : String) (default : Option String) : String :=
  match (translations.lookup language).bind (fun t => t.lookup key) with
  | some v => v
  | none =>
    match (translations.lookup "en").bind (fun t => t.lookup key) with
    | some v => v
    | none =>
      match default with
      | some d => if d = "" then humanizeKey key else d
      | none => humanizeKey key

/-! ### failure policy (the try/except wrappers around every service method) -/

/-- The outcome of the underlying storage interaction of one service method:
a value, or a raised exception with its message. -/
inductive DBOutcome (α : Type) where
  | ok (a : α)
  | raised (msg : String)
  deriving Repr, DecidableEq

/-- get_images swallows exceptions and returns []. -/
def get_images_service (r : DBOutcome (List ImageResult)) : List ImageResult :=
  match r with | .ok v => v | .raised _ => []

/-- get_image_labels swallows exceptions and returns []. -/
def get_image_labels_service (r : DBOutcome (List LabelRow)) : List LabelRow :=
  match r with | .ok v => v | .raised _ => []

/-- get_activity_timeline swallows exceptions and returns []. -/
def get_activity_timeline_service (r : DBOutcome (List (String × Nat))) :
    List (String × Nat) :=
  match r with | .ok v => v | .raised _ => []

/-- get_statistics / get_category_statistics / get_language_statistics swallow
exceptions and return the empty mapping (an empty association list). -/
def statistics_service (r : DBOutcome (List (String × Int))) : List (String × Int) :=
  match r with | .ok v => v | .raised _ => []

/-- get_user_stats swallows exceptions and returns the empty mapping; the
populated mapping is modelled as the UserStats record. -/
def get_user_stats_service (r : DBOutcome UserStats) : Option UserStats :=
  match r with | .ok v => some v | .raised _ => none

/-- export_to_excel and create_images_zip swallow exceptions and return None
(null) instead of the byte buffer. -/
def export_service {α : Type} (r : DBOutcome α) : Option α :=
  match r with | .ok v => some v | .raised _ => none

/-- add_label swallows exceptions and returns False. -/
def add_label_service (r : DBOutcome Bool) : Bool :=
  match r with | .ok v => v | .raised _ => false

/-- add_image alone re-raises: the exception propagates to the caller. -/
def add_image_service (r : DBOutcome String) : Except String String :=
  match r with | .ok v => .ok v | .raised m => .error m

/-! ### Helper lemmas on the Python string primitives -/

/-- The list-level body of pyStrip. -/
def stripChars (l : List Char) : List Char :=
  ((l.dropWhile pyIsSpace).reverse.dropWhile pyIsSpace).reverse

theorem pyStrip_eq_stripChars (s : String) : pyStrip s = ⟨stripChars s.toList⟩ := rfl

theorem dropWhile_head_false {α : Type} (p : α → Bool) (l : List α) {c : α}
    (h : (l.dropWhile p).head? = some c) : p c = false := by
  induction l with
  | nil => simp [List.dropWhile] at h
  | cons x xs ih =>
    by_cases hx : p x
    · rw [List.dropWhile_cons, if_pos hx] at h
      exact ih h
    · rw [List.dropWhile_cons, if_neg hx] at h
      simp only [List.head?_cons, Option.some.injEq] at h
      subst h
      simpa using hx

theorem dropWhile_eq_self_of_head {α : Type} (p : α → Bool) (l : List α)
    (h : ∀ c, l.head? = some c → p c = false) : l.dropWhile p = l := by
  cases l with
  | nil => rfl
  | cons x xs =>
    rw [List.dropWhile_cons, if_neg]
    simp [h x rfl]

theorem stripChars_head_false (l : List Char) {c : Char}
    (h : (stripChars l).head? = some c) : pyIsSpace c = false := by
  unfold stripChars at h
  cases ht : l.dropWhile pyIsSpace with
  | nil => rw [ht] at h; simp at h
  | cons x xs =>
    have hx : pyIsSpace x = false := dropWhile_head_false pyIsSpace l (by rw [ht]; rfl)
    rw [ht, List.reverse_cons, List.dropWhile_append] at h
    by_cases he : (xs.reverse.dropWhile pyIsSpace).isEmpty
    · rw [if_pos (by simpa using he)] at h
      simp [List.dropWhile_cons, hx] at h
      simpa [← h] using hx
    · rw [if_neg (by simpa using he)] at h
      rw [List.reverse_append] at h
      simp only [List.reverse_cons, List.reverse_nil, List.nil_append,
        List.singleton_append, List.head?_cons, Option.some.injEq] at h
      simpa [← h] using hx

theorem stripChars_idem (l : List Char) : stripChars (stripChars l) = stripChars l := by
  have h1 : (stripChars l).dropWhile pyIsSpace = stripChars l :=
    dropWhile_eq_self_of_head _ _ (fun c hc => stripChars_head_false l hc)
  have h2 : (stripChars l).reverse = (l.dropWhile pyIsSpace).reverse.dropWhile pyIsSpace := by
    unfold stripChars
    rw [List.reverse_reverse]
  have h3 : (stripChars l).reverse.dropWhile pyIsSpace = (stripChars l).reverse := by
    rw [h2]
    exact dropWhile_eq_self_of_head _ _
      (fun c hc => dropWhile_head_false pyIsSpace (l.dropWhile pyIsSpace).reverse hc)
  show ((((stripChars l).dropWhile pyIsSpace).reverse.dropWhile pyIsSpace).reverse : List Char) =
    stripChars l
  rw [h1, h3, List.reverse_reverse]

theorem pyStrip_idem (s : String) : pyStrip (pyStrip s) = pyStrip s := by
  rw [pyStrip_eq_stripChars, pyStrip_eq_stripChars]
  show String.mk (stripChars (stripChars s.toList)) = _
  rw [stripChars_idem]

theorem filter_all_alnum (l : List Char) :
    ((l.filter (fun c => decide (c ≠ '-') && decide (c ≠ '_'))).all Char.isAlphanum) =
      l.all (fun c => c.isAlphanum || decide (c = '_') || decide (c = '-')) := by
  induction l with
  | nil => rfl
  | cons c cs ih =>
    by_cases h1 : c = '_'
    · subst h1; simpa using ih
    · by_cases h2 : c = '-'
      · subst h2; simpa using ih
      · rw [List.filter_cons, if_pos (by simp [h1, h2]), List.all_cons, List.all_cons, ih]
        simp [h1, h2]

theorem filter_nonempty_alnum (l : List Char)
    (hall : l.all (fun c => c.isAlphanum || decide (c = '_') || decide (c = '-')) = true) :
    (!(l.filter (fun c => decide (c ≠ '-') && decide (c ≠ '_'))).isEmpty) =
      l.any Char.isAlphanum := by
  induction l with
  | nil => rfl
  | cons c cs ih =>
    simp only [List.all_cons, Bool.and_eq_true] at hall
    by_cases h1 : c = '_'
    · subst h1; simpa using ih hall.2
    · by_cases h2 : c = '-'
      · subst h2; simpa using ih hall.2
      · have hc : c.isAlphanum = true := by
          have := hall.1
          simpa [h1, h2] using this
        simp [List.filter_cons, h1, h2, hc]

/-- The charset test of create_user, re-expressed over the original
characters: every character is alphanumeric, underscore or hyphen, and at
least one character is alphanumeric. -/
theorem pyIsAlnum_remove (u : String) :
    pyIsAlnumStr (removeChar '-' (removeChar '_' u)) =
      (u.toList.all (fun c => c.isAlphanum || decide (c = '_') || decide (c = '-')) &&
       u.toList.any Char.isAlphanum) := by
  unfold pyIsAlnumStr removeChar
  simp only [String.toList, List.filter_filter]
  by_cases hall :
      u.data.all (fun c => c.isAlphanum || decide (c = '_') || decide (c = '-')) = true
  · rw [show (!(List.filter (fun a => decide (a ≠ '-') && decide (a ≠ '_')) u.data).isEmpty &&
        (List.filter (fun a => decide (a ≠ '-') && decide (a ≠ '_')) u.data).all Char.isAlphanum) =
        ((!(List.filter (fun a => decide (a ≠ '-') && decide (a ≠ '_')) u.data).isEmpty) &&
        u.data.all (fun c => c.isAlphanum || decide (c = '_') || decide (c = '-'))) from by
          rw [filter_all_alnum]]
    rw [filter_nonempty_alnum u.data hall, hall]
    simp
  · have hallf :
        u.data.all (fun c => c.isAlphanum || decide (c = '_') || decide (c = '-')) = false :=
      by simpa using hall
    rw [show (!(List.filter (fun a => decide (a ≠ '-') && decide (a ≠ '_')) u.data).isEmpty &&
        (List.filter (fun a => decide (a ≠ '-') && decide (a ≠ '_')) u.data).all Char.isAlphanum) =
        ((!(List.filter (fun a => decide (a ≠ '-') && decide (a ≠ '_')) u.data).isEmpty) &&
        u.data.all (fun c => c.isAlphanum || decide (c = '_') || decide (c = '-'))) from by
          rw [filter_all_alnum]]
    rw [hallf]
    simp

/-- The charset test of create_user as a proposition over the original
characters. -/
theorem pyIsAlnum_remove_iff (u : String) :
    pyIsAlnumStr (removeChar '-' (removeChar '_' u)) = true ↔
      ((∀ c ∈ u.toList, c.isAlphanum = true ∨ c = '_' ∨ c = '-') ∧
       ∃ c ∈ u.toList, c.isAlphanum = true) := by
  rw [pyIsAlnum_remove]
  simp only [Bool.and_eq_true, List.all_eq_true, List.any_eq_true, Bool.or_eq_true,
    decide_eq_true_eq]
  constructor <;> rintro ⟨hall, hany⟩ <;>
    exact ⟨fun c hc => by have := hall c hc; tauto, hany⟩

/-! ### Claim C3: the Register contract -/

theorem create_user_success_iff (u p : String) (users : List UserRow) :
    (create_user u p users).1.1 = true ↔
      (pyStrip u ≠ "" ∧ 3 ≤ (pyStrip u).length ∧ 3 ≤ (pyStrip p).length ∧
       (∀ c ∈ (pyStrip u).toList, c.isAlphanum = true ∨ c = '_' ∨ c = '-') ∧
       (∃ c ∈ (pyStrip u).toList, c.isAlphanum = true) ∧
       pyStrip u ∉ users.map UserRow.username) := by
  simp only [create_user]
  split_ifs with h1 h2 h3 h4 h5
  · simp only [Bool.or_eq_true, decide_eq_true_eq] at h1
    constructor
    · intro h; simp at h
    · rintro ⟨hne, -, hlp, -, -, -⟩
      exfalso
      rcases h1 with h | h
      · exact hne h
      · have h0 : (pyStrip p).length = 0 := by rw [h]; rfl
        omega
  · constructor
    · intro h; simp at h
    · rintro ⟨-, hlu, -, -, -, -⟩; omega
  · constructor
    · intro h; simp at h
    · rintro ⟨-, -, hlp, -, -, -⟩; omega
  · constructor
    · intro h; simp at h
    · rintro ⟨-, -, -, hall, hany, -⟩
      have hX := (pyIsAlnum_remove_iff (pyStrip u)).mpr ⟨hall, hany⟩
      rw [hX] at h4
      simp at h4
  · constructor
    · intro h; simp at h
    · rintro ⟨-, -, -, -, -, hnm⟩
      exact hnm h5
  · have hX : pyIsAlnumStr (removeChar '-' (removeChar '_' (pyStrip u))) = true := by
      simpa using h4
    obtain ⟨hall, hany⟩ := (pyIsAlnum_remove_iff (pyStrip u)).mp hX
    constructor
    · intro _
      refine ⟨?_, by omega, by omega, hall, hany, h5⟩
      intro he
      exact h1 (by simp [he])
    · intro _
      rfl

theorem create_user_short_reason (u p : String) (users : List UserRow)
    (hu : pyStrip u ≠ "") (hp : pyStrip p ≠ "") (hl : (pyStrip u).length < 3) :
    (create_user u p users).1 = (false, "Username must be at least 3 characters") := by
  simp only [create_user]
  rw [if_neg (by simp [hu, hp]), if_pos hl]

theorem create_user_dup_reason (u p : String) (users : List UserRow)
    (hlu : 3 ≤ (pyStrip u).length) (hlp : 3 ≤ (pyStrip p).length)
    (hall : ∀ c ∈ (pyStrip u).toList, c.isAlphanum = true ∨ c = '_' ∨ c = '-')
    (hany : ∃ c ∈ (pyStrip u).toList, c.isAlphanum = true)
    (hmem : pyStrip u ∈ users.map UserRow.username) :
    (create_user u p users).1 = (false, "Username already exists") := by
  have hne : pyStrip u ≠ "" := by
    intro he
    have h0 : (pyStrip u).length = 0 := by rw [he]; rfl
    omega
  have hnep : pyStrip p ≠ "" := by
    intro he
    have h0 : (pyStrip p).length = 0 := by rw [he]; rfl
    omega
  have hX : pyIsAlnumStr (removeChar '-' (removeChar '_' (pyStrip u))) = true :=
    (pyIsAlnum_remove_iff _).mpr ⟨hall, hany⟩
  simp only [create_user]
  rw [if_neg (by simp [hne, hnep]), if_neg (by omega), if_neg (by omega),
    if_neg (by simp [hX]), if_pos hmem]

/-- C3 counterexample: the username "___" with password "abc" on an empty
users table satisfies every condition of the claim — non-empty, 3 characters
long, composed only of letters, digits, underscore and hyphen, password of 3
characters, and not already present — yet create_user rejects it (its
charset test additionally requires at least one letter or digit), refuting
the claimed if-and-only-if. -/
theorem create_user_claim_cex :
    (create_user "___" "abc" []).1 =
      (false, "Username can only contain letters, numbers, underscore, and hyphen") ∧
    "___" ≠ "" ∧ 3 ≤ "___".length ∧ 3 ≤ "abc".length ∧
    (∀ c ∈ "___".toList, c.isAlphanum = true ∨ c = '_' ∨ c = '-') ∧
    "___" ∉ ([] : List UserRow).map UserRow.username := by
  refine ⟨by decide, by decide, by decide, by decide, by decide, by decide⟩

/-- C3 (amended): Register succeeds iff the stripped username is non-empty,
at least 3 characters, composed only of letters, digits, underscore and
hyphen AND containing at least one letter or digit, the stripped password is
at least 3 characters, and the username is not already present; a non-empty
(post-strip) username shorter than 3 characters with a non-empty password
fails with the length-related reason, and a duplicate of an otherwise valid
username fails with the already-exists reason. -/
theorem create_user_register_spec (u p : String) (users : List UserRow) :
    ((create_user u p users).1.1 = true ↔
      (pyStrip u ≠ "" ∧ 3 ≤ (pyStrip u).length ∧ 3 ≤ (pyStrip p).length ∧
       (∀ c ∈ (pyStrip u).toList, c.isAlphanum = true ∨ c = '_' ∨ c = '-') ∧
       (∃ c ∈ (pyStrip u).toList, c.isAlphanum = true) ∧
       pyStrip u ∉ users.map UserRow.username)) ∧
    (pyStrip u ≠ "" ∧ pyStrip p ≠ "" ∧ (pyStrip u).length < 3 →
      (create_user u p users).1 = (false, "Username must be at least 3 characters")) ∧
    (3 ≤ (pyStrip u).length ∧ 3 ≤ (pyStrip p).length ∧
       (∀ c ∈ (pyStrip u).toList, c.isAlphanum = true ∨ c = '_' ∨ c = '-') ∧
       (∃ c ∈ (pyStrip u).toList, c.isAlphanum = true) ∧
       pyStrip u ∈ users.map UserRow.username →
      (create_user u p users).1 = (false, "Username already exists")) :=
  ⟨create_user_success_iff u p users,
   fun hh => create_user_short_reason u p users hh.1 hh.2.1 hh.2.2,
   fun hh => create_user_dup_reason u p users hh.1 hh.2.1 hh.2.2.1 hh.2.2.2.1 hh.2.2.2.2⟩

/-- Witness for C3 at a concrete input: a 2-character username fails with the
length reason. -/
theorem create_user_register_spec_w :
    (create_user "ab" "abc" []).1 = (false, "Username must be at least 3 characters") :=
  (create_user_register_spec "ab" "abc" []).2.1 (by decide)

/-! ### Claim C10: stripping before validation and storage -/

/-- C10: create_user is invariant under pre-stripping its inputs (all checks
are evaluated on the stripped strings), an input that is empty after
stripping fails with the required-fields reason leaving the table unchanged,
and on success the stored row holds the stripped username and password. -/
theorem create_user_strip_behavior (u p : String) (users : List UserRow) :
    create_user u p users = create_user (pyStrip u) (pyStrip p) users ∧
    (pyStrip u = "" ∨ pyStrip p = "" →
      create_user u p users = ((false, "Username and password are required"), users)) ∧
    ((create_user u p users).1.1 = true →
      (create_user u p users).2 = users ++ [⟨pyStrip u, pyStrip p⟩]) := by
  refine ⟨?_, ?_, ?_⟩
  · simp only [create_user, pyStrip_idem]
  · intro h
    simp only [create_user]
    rw [if_pos]
    rcases h with h | h <;> simp [h]
  · intro h
    simp only [create_user] at h ⊢
    split_ifs at h ⊢
    rfl

/-- Witness for C10 at a concrete input: a whitespace-only username fails
with the required-fields reason. -/
theorem create_user_strip_behavior_w :
    create_user "   " "pw" [] = ((false, "Username and password are required"), []) :=
  (create_user_strip_behavior "   " "pw" []).2.1 (Or.inl (by decide))

/-! ### Claim C5: referential integrity of the labels table -/

/-- C5 failing input: calling add_label with image id "img-1" on a freshly
initialised database (no images, no users) succeeds and stores an orphan
label row — the reachable state violates the claimed referential integrity,
because PRAGMA foreign_keys=ON is executed only on the init_database
connection and get_connection never re-enables it, so the declared foreign
keys are not enforced on the inserting connection. -/
theorem add_label_orphan_violation :
    (add_label initDB "img-1" "cat" "en" "alice" 0).2 = true ∧
    (runOps [Op.addLabel "img-1" "cat" "en" "alice" 0]).labels =
      [⟨1, "img-1", "cat", "en", "alice", 0⟩] ∧
    (runOps [Op.addLabel "img-1" "cat" "en" "alice" 0]).images = [] ∧
    (runOps [Op.addLabel "img-1" "cat" "en" "alice" 0]).users = [] :=
  ⟨rfl, by decide, rfl, rfl⟩

/-! ### Claim C2: uniqueness of the (image_id, text, language) key -/

/-- No two rows of the labels table share the (image_id, text, language)
key triple. -/
def noDupKeys (labels : List LabelRow) : Prop :=
  labels.Pairwise (fun a b =>
    ¬(a.image_id = b.image_id ∧ a.text = b.text ∧ a.language = b.language))

theorem noDupKeys_upsert (labels : List LabelRow) (newId : Nat)
    (image_id text language added_by : String) (now : Nat) (h : noDupKeys labels) :
    noDupKeys (upsertLabel labels newId image_id text language added_by now) := by
  unfold noDupKeys upsertLabel
  rw [List.pairwise_append]
  refine ⟨List.Pairwise.sublist (List.filter_sublist _) h, by simp, ?_⟩
  intro a ha b hb
  simp only [List.mem_singleton] at hb
  subst hb
  have hk : labelKeyMatches a image_id text language = false := by
    simpa using (List.mem_filter.mp ha).2
  rintro ⟨he1, he2, he3⟩
  rw [show labelKeyMatches a image_id text language = true from by
    simp only [labelKeyMatches]
    simp_all] at hk
  exact absurd hk (by simp)

theorem noDupKeys_step (db : DB) (op : Op) (h : noDupKeys db.labels) :
    noDupKeys (step db op).labels := by
  cases op with
  | createUser u p => exact h
  | addImage id title descr cat path up now => exact h
  | addLabel id text lang contributor now =>
      exact noDupKeys_upsert db.labels db.nextLabelId id text lang contributor now h

theorem noDupKeys_foldl (ops : List Op) (db : DB) (h : noDupKeys db.labels) :
    noDupKeys (ops.foldl step db).labels := by
  induction ops generalizing db with
  | nil => exact h
  | cons op ops ih => exact ih _ (noDupKeys_step db op h)

/-- C2: in every state reachable through the service operations the labels
table never holds two rows with the same (image_id, text, language) triple,
and an add_label call on such a state leaves exactly one (fresh) row with
the requested key, all other rows untouched. -/
theorem labels_unique_key_spec (ops : List Op)
    (image_id text language added_by : String) (now : Nat) :
    noDupKeys (runOps ops).labels ∧
    ((add_label (runOps ops) image_id text language added_by now).1.labels.filter
        (fun r => labelKeyMatches r image_id text language) =
      [⟨(runOps ops).nextLabelId, image_id, text, language, added_by, now⟩]) ∧
    ((add_label (runOps ops) image_id text language added_by now).1.labels.filter
        (fun r => !labelKeyMatches r image_id text language) =
      (runOps ops).labels.filter
        (fun r => !labelKeyMatches r image_id text language)) := by
  refine ⟨noDupKeys_foldl ops initDB (by simp [initDB, noDupKeys]), ?_, ?_⟩
  · show (upsertLabel (runOps ops).labels (runOps ops).nextLabelId
        image_id text language added_by now).filter
        (fun r => labelKeyMatches r image_id text language) = _
    unfold upsertLabel
    rw [List.filter_append, List.filter_filter]
    rw [List.filter_congr
      (fun x _ => Bool.and_not_self (labelKeyMatches x image_id text language)),
      List.filter_false]
    simp [labelKeyMatches]
  · show (upsertLabel (runOps ops).labels (runOps ops).nextLabelId
        image_id text language added_by now).filter
        (fun r => !labelKeyMatches r image_id text language) = _
    unfold upsertLabel
    rw [List.filter_append, List.filter_filter]
    rw [List.filter_congr (fun x _ => Bool.and_self (!labelKeyMatches x image_id text language))]
    simp [labelKeyMatches]

/-! ### Claim C1: the denormalized label_count -/

/-- The invariant: every image row stores label_count equal to the live
count of labels referencing it. -/
def labelCountOk (db : DB) : Bool :=
  db.images.all (fun i => i.label_count = countLabelsFor db.labels i.id)

theorem countLabelsFor_upsert_ne (labels : List LabelRow) (newId : Nat)
    (image_id text language added_by : String) (now : Nat) {other : String}
    (hne : other ≠ image_id) :
    countLabelsFor (upsertLabel labels newId image_id text language added_by now) other =
      countLabelsFor labels other := by
  unfold countLabelsFor upsertLabel
  rw [List.filter_append, List.filter_filter]
  have h1 : List.filter (fun r : LabelRow => r.image_id = other)
      [⟨newId, image_id, text, language, added_by, now⟩] = [] := by
    simp [Ne.symm hne]
  have h2 : ∀ x ∈ labels,
      (decide (x.image_id = other) && !labelKeyMatches x image_id text language) =
        decide (x.image_id = other) := by
    intro x _
    by_cases hx : x.image_id = other
    · have : labelKeyMatches x image_id text language = false := by
        simp [labelKeyMatches, hx, hne]
      simp [this]
    · simp [hx]
  rw [h1, List.filter_congr h2, List.append_nil]

theorem labelCountOk_add_label (db : DB)
    (image_id text language added_by : String) (now : Nat)
    (h : labelCountOk db = true) :
    labelCountOk (add_label db image_id text language added_by now).1 = true := by
  simp only [labelCountOk, List.all_eq_true, decide_eq_true_eq] at h ⊢
  intro i' hi'
  simp only [add_label] at hi' ⊢
  obtain ⟨i, hi, rfl⟩ := List.mem_map.mp hi'
  by_cases hid : i.id = image_id
  · simp [hid]
  · simp only [if_neg hid]
    rw [countLabelsFor_upsert_ne db.labels db.nextLabelId image_id text language
      added_by now hid]
    exact h i hi

/-- One add_label call with its arguments (uuid-or-not image id, text,
language, contributor, clock). -/
structure AddLabelCall where
  image_id : String
  text : String
  language : String
  added_by : String
  now : Nat
  deriving Repr, DecidableEq

/-- A sequence of add_label calls applied to a database state. -/
def runAddLabels (db : DB) : List AddLabelCall → DB
  | [] => db
  | c :: cs => runAddLabels (add_label db c.image_id c.text c.language c.added_by c.now).1 cs

/-- C1: after any sequence of add_label operations starting from a state
satisfying the invariant, every image's stored label_count equals the number
of labels rows referencing it. -/
theorem label_count_invariant_spec (db : DB) (calls : List AddLabelCall)
    (h : labelCountOk db = true) :
    labelCountOk (runAddLabels db calls) = true := by
  induction calls generalizing db with
  | nil => exact h
  | cons c cs ih =>
      exact ih _ (labelCountOk_add_label db c.image_id c.text c.language c.added_by c.now h)

/-- Witness for C1 at a concrete input: one image, three add_label calls of
which one replaces an earlier label. -/
theorem label_count_invariant_spec_w :
    labelCountOk (runAddLabels
      (add_image initDB "i1" "Cat" none "Animals" "p.png" "alice" 0).1
      [⟨"i1", "cat", "en", "alice", 1⟩, ⟨"i1", "chat", "fr", "bob", 2⟩,
       ⟨"i1", "cat", "en", "carol", 3⟩]) = true :=
  label_count_invariant_spec
    (add_image initDB "i1" "Cat" none "Animals" "p.png" "alice" 0).1
    [⟨"i1", "cat", "en", "alice", 1⟩, ⟨"i1", "chat", "fr", "bob", 2⟩,
     ⟨"i1", "cat", "en", "carol", 3⟩] (by decide)

/-! ### Claim C6: the failure policy -/

/-- C6: for every raised storage error, each read/aggregate method returns
its safe default (empty list or empty mapping), each export returns null,
add_label returns false, and add_image alone re-raises the error to the
caller. -/
theorem failure_policy_spec (msg : String) :
    get_images_service (.raised msg) = [] ∧
    get_image_labels_service (.raised msg) = [] ∧
    get_activity_timeline_service (.raised msg) = [] ∧
    statistics_service (.raised msg) = [] ∧
    get_user_stats_service (.raised msg) = none ∧
    @export_service (List (String × String)) (.raised msg) = none ∧
    add_label_service (.raised msg) = false ∧
    add_image_service (.raised msg) = Except.error msg :=
  ⟨rfl, rfl, rfl, rfl, rfl, rfl, rfl, rfl⟩

/-! ### Claim C7: per-user points and rank -/

theorem sumPoints_nonneg (acts : List ActivityRow)
    (hpos : ∀ a ∈ acts, 0 ≤ a.points_earned) (u : String) :
    0 ≤ sumPoints acts u := by
  apply List.sum_nonneg
  intro x hx
  obtain ⟨a, ha, rfl⟩ := List.mem_map.mp hx
  exact hpos a (List.mem_filter.mp ha).1

theorem sumPoints_eq_zero_of_not_mem (acts : List ActivityRow) {u : String}
    (h : u ∉ ledgerUsers acts) : sumPoints acts u = 0 := by
  unfold sumPoints
  rw [show acts.filter (fun a => a.user_id = u) = [] from ?_]
  · rfl
  · rw [List.filter_eq_nil_iff]
    intro a ha hu
    apply h
    unfold ledgerUsers
    rw [List.mem_dedup]
    exact List.mem_map.mpr ⟨a, ha, by simpa using hu⟩

/-- C7: get_user_stats returns the user's summed activity points (0 when
they have no ledger rows) and a rank of 1 plus the number of other users
whose summed points are strictly greater — counted over any user universe
covering the ledger (reachable ledgers only award non-negative points, which
the hypothesis reflects). -/
theorem get_user_stats_spec (db : DB) (username : String) (userTable : List String)
    (hsub : ∀ a ∈ db.activities, a.user_id ∈ userTable)
    (hpos : ∀ a ∈ db.activities, 0 ≤ a.points_earned) :
    (get_user_stats db username).total_points = sumPoints db.activities username ∧
    (get_user_stats db username).user_rank =
      1 + (userTable.dedup.filter (fun u =>
        decide (u ≠ username) &&
        decide (sumPoints db.activities username < sumPoints db.activities u))).length := by
  refine ⟨rfl, ?_⟩
  have hme : 0 ≤ sumPoints db.activities username := sumPoints_nonneg db.activities hpos username
  show 1 + ((ledgerUsers db.activities).filter
      (fun u => sumPoints db.activities username < sumPoints db.activities u)).length = _
  congr 1
  apply List.Perm.length_eq
  have hn1 : ((ledgerUsers db.activities).filter
      (fun u => sumPoints db.activities username < sumPoints db.activities u)).Nodup := by
    unfold ledgerUsers
    exact List.Nodup.filter _ (List.nodup_dedup _)
  have hn2 : (userTable.dedup.filter (fun u =>
      decide (u ≠ username) &&
      decide (sumPoints db.activities username < sumPoints db.activities u))).Nodup :=
    List.Nodup.filter _ (List.nodup_dedup _)
  refine (List.perm_ext_iff_of_nodup hn1 hn2).mpr ?_
  intro u
  rw [List.mem_filter, List.mem_filter]
  constructor
  · rintro ⟨hm, hlt⟩
    simp only [decide_eq_true_eq] at hlt
    have hmu : u ∈ userTable := by
      unfold ledgerUsers at hm
      rw [List.mem_dedup] at hm
      obtain ⟨a, ha, rfl⟩ := List.mem_map.mp hm
      exact hsub a ha
    refine ⟨List.mem_dedup.mpr hmu, ?_⟩
    simp only [Bool.and_eq_true, decide_eq_true_eq]
    refine ⟨?_, hlt⟩
    intro he
    subst he
    exact lt_irrefl _ hlt
  · rintro ⟨hm, hcond⟩
    simp only [Bool.and_eq_true, decide_eq_true_eq] at hcond
    obtain ⟨hne, hlt⟩ := hcond
    have hmem : u ∈ ledgerUsers db.activities := by
      by_contra hnm
      rw [sumPoints_eq_zero_of_not_mem db.activities hnm] at hlt
      omega
    exact ⟨hmem, by simpa using hlt⟩

/-- Fixture for the C7 witness: two users with ledger rows. -/
def statsFixtureDB : DB :=
  { initDB with activities :=
      [⟨"alice", "image_upload", "d", 10⟩, ⟨"bob", "label_add", "d", 5⟩] }

/-- Witness for C7 at a concrete input. -/
theorem get_user_stats_spec_w :
    (get_user_stats statsFixtureDB "bob").total_points =
      sumPoints statsFixtureDB.activities "bob" ∧
    (get_user_stats statsFixtureDB "bob").user_rank =
      1 + ((["alice", "bob"].dedup).filter (fun u =>
        decide (u ≠ "bob") &&
        decide (sumPoints statsFixtureDB.activities "bob" <
          sumPoints statsFixtureDB.activities u))).length :=
  get_user_stats_spec statsFixtureDB "bob" ["alice", "bob"] (by decide) (by decide)

/-! ### Claim C8: the zip archive layout -/

/-- Fixture for the C8 counterexample: a 60-character title. -/
def zipCexDB : DB :=
  { initDB with images :=
      [⟨"i1", ⟨List.replicate 60 'a'⟩, none, "Animals", some "photo.png", "bob", 0, 0⟩] }

/-- C8 counterexample: with a 60-character title the single archive entry
path is 66 characters long — only the title component is cut to 50
characters, the full category/uploader/filename path is not truncated to 50
as claimed. -/
theorem create_images_zip_claim_cex :
    (create_images_zip zipCexDB (fun p => p = "photo.png")).map
      (fun e => e.1.length) = [66] ∧ ¬(66 ≤ 50) :=
  ⟨by decide, by decide⟩

/-- C8 (amended): the archive holds exactly the images whose stored path is
non-null and whose file still exists (missing files are skipped), each under
category/uploader/(first 50 characters of the title) + extension of the
stored path; the title component alone is truncated to 50 characters. -/
theorem create_images_zip_spec (db : DB) (fexists : String → Bool) :
    (∀ e ∈ create_images_zip db fexists, ∃ i ∈ db.images, ∃ p,
        i.image_path = some p ∧ fexists p = true ∧
        e = (i.category ++ "/" ++ i.uploaded_by ++ "/" ++ pyTake 50 i.title ++
          splitextExt p, p)) ∧
    (∀ i ∈ db.images, ∀ p, i.image_path = some p → fexists p = true →
        (i.category ++ "/" ++ i.uploaded_by ++ "/" ++ pyTake 50 i.title ++
          splitextExt p, p) ∈ create_images_zip db fexists) := by
  constructor
  · intro e he
    obtain ⟨i, hi, hf⟩ := List.mem_filterMap.mp he
    cases hpath : i.image_path with
    | none => rw [hpath] at hf; simp at hf
    | some p =>
      by_cases hex : fexists p = true
      · refine ⟨i, hi, p, hpath, hex, ?_⟩
        simp only [hpath, hex, if_true, archivePath] at hf
        simp only [Option.some.injEq] at hf
        exact hf.symm
      · simp [hpath, hex] at hf
  · intro i hi p hpath hex
    apply List.mem_filterMap.mpr
    refine ⟨i, hi, ?_⟩
    rw [hpath]
    simp [hex, archivePath]

/-- Fixture for the C8 witness. -/
def zipFixtureDB : DB :=
  { initDB with images := [⟨"i2", "Dog", none, "Animals", some "d.png", "amy", 0, 0⟩] }

/-- Witness for C8 at a concrete input. -/
theorem create_images_zip_spec_w :
    ("Animals" ++ "/" ++ "amy" ++ "/" ++ pyTake 50 "Dog" ++ splitextExt "d.png", "d.png") ∈
      create_images_zip zipFixtureDB (fun _ => true) :=
  (create_images_zip_spec zipFixtureDB (fun p => true)).2
    ⟨"i2", "Dog", none, "Animals", some "d.png", "amy", 0, 0⟩ (by decide) "d.png" rfl rfl

/-! ### Claim C9: translation lookup fallback -/

/-- C9: the translation lookup returns the string stored for the key in the
requested language when present; otherwise the string stored for the key in
the default (English) table when present; otherwise the humanized key. -/
theorem get_translation_spec (translations : List (String × List (String × String)))
    (key language : String) :
    (∀ table v, translations.lookup language = some table → table.lookup key = some v →
      get_translation translations key language none = v) ∧
    ((translations.lookup language).bind (fun t => t.lookup key) = none →
      ∀ table v, translations.lookup "en" = some table → table.lookup key = some v →
        get_translation translations key language none = v) ∧
    ((translations.lookup language).bind (fun t => t.lookup key) = none →
      (translations.lookup "en").bind (fun t => t.lookup key) = none →
      get_translation translations key language none = humanizeKey key) := by
  refine ⟨?_, ?_, ?_⟩
  · intro table v h1 h2
    unfold get_translation
    rw [h1]
    simp [h2]
  · intro h1 table v h2 h3
    unfold get_translation
    rw [h1, h2]
    simp [h3]
  · intro h1 h2
    unfold get_translation
    rw [h1, h2]

/-- Witness for C9 at a concrete input: a key missing from the requested
language falls back to the English table. -/
theorem get_translation_spec_w :
    get_translation [("en", [("total_images", "Total Images")])] "total_images" "hi" none =
      "Total Images" :=
  (get_translation_spec [("en", [("total_images", "Total Images")])] "total_images" "hi").2.1
    rfl [("total_images", "Total Images")] "Total Images" rfl rfl

/-! ### Claim C4: the image query

The following spec-side predicates state the claim's filter conditions per
image and per label, for comparison against the join-based get_images. -/

/-- Spec-side: the free-text filter hit on the image columns alone (title or
description contains the search, with SQL LIKE semantics). -/
def specTitleDescMatch (i : ImageRow) (s : String) : Bool :=
  sqlLike i.title (searchPattern s) ||
  (match i.description with | none => false | some d => sqlLike d (searchPattern s))

/-- Spec-side: the category filter (exact match when supplied). -/
def specCategoryOk (category : Option String) (i : ImageRow) : Bool :=
  match category with
  | none => true
  | some c => i.category = c

/-- Spec-side: whether one label of the image survives the label-level
filters — the language filter when supplied, and the free-text filter
(satisfied by the image columns or by this label's text) when supplied. -/
def specLabelSurvives (language search : Option String) (i : ImageRow) (l : LabelRow) : Bool :=
  (match language with | none => true | some lang => l.language = lang) &&
  (match search with
   | none => true
   | some s => specTitleDescMatch i s || sqlLike l.text (searchPattern s))

/-- Spec-side: the amended per-image membership condition of the query — the
category matches, and either some label of the image survives the
label-level filters, or the image has no labels at all while no language
filter is supplied and the image columns satisfy any free-text filter. -/
def specImagePasses (db : DB) (category language search : Option String)
    (i : ImageRow) : Bool :=
  specCategoryOk category i &&
  ((db.labels.filter (fun l => l.image_id = i.id)).any (specLabelSurvives language search i) ||
   ((db.labels.filter (fun l => l.image_id = i.id)).isEmpty && language.isNone &&
    (match search with | none => true | some s => specTitleDescMatch i s)))

theorem whereClause_some (c lang s : Option String) (i : ImageRow) (l : LabelRow) :
    whereClause c lang s i (some l) =
      (specCategoryOk c i && specLabelSurvives lang s i l) := by
  unfold whereClause specCategoryOk specLabelSurvives specTitleDescMatch
  cases c <;> cases lang <;> cases s <;> simp [Bool.and_assoc]

theorem whereClause_none (c lang s : Option String) (i : ImageRow) :
    whereClause c lang s i none =
      (specCategoryOk c i && lang.isNone &&
        (match s with | none => true | some str => specTitleDescMatch i str)) := by
  unfold whereClause specCategoryOk specTitleDescMatch
  cases c <;> cases lang <;> cases s <;> simp [Bool.and_assoc]

theorem activeFilter_eq_self {o : Option String} (h : o ≠ some "") : activeFilter o = o := by
  cases o with
  | none => rfl
  | some s =>
    have hs : s ≠ "" := fun he => h (by rw [he])
    simp [activeFilter, hs]

theorem filter_isEmpty_eq_not_any {α : Type} (p : α → Bool) (l : List α) :
    (l.filter p).isEmpty = !l.any p := by
  induction l with
  | nil => rfl
  | cons x xs ih =>
    by_cases h : p x = true <;> simp [List.filter_cons, h, ih]

theorem insertByUploadedDesc_perm {α : Type} (key : α → Nat) (r : α) (l : List α) :
    (insertByUploadedDesc key r l).Perm (r :: l) := by
  induction l with
  | nil => exact List.Perm.refl _
  | cons x xs ih =>
    rw [insertByUploadedDesc]
    by_cases hc : key x ≤ key r
    · rw [if_pos hc]
    · rw [if_neg hc]
      exact (List.Perm.cons x ih).trans (List.Perm.swap r x xs)

theorem sortByKeyDesc_perm {α : Type} (key : α → Nat) (l : List α) :
    (sortByKeyDesc key l).Perm l := by
  induction l with
  | nil => exact List.Perm.refl _
  | cons x xs ih =>
    rw [sortByKeyDesc]
    exact (insertByUploadedDesc_perm key x _).trans (List.Perm.cons x ih)

theorem insertByUploadedDesc_pairwise {α : Type} (key : α → Nat) (r : α) (l : List α)
    (h : l.Pairwise (fun a b => key b ≤ key a)) :
    (insertByUploadedDesc key r l).Pairwise (fun a b => key b ≤ key a) := by
  induction l with
  | nil => simp [insertByUploadedDesc]
  | cons x xs ih =>
    rw [insertByUploadedDesc]
    obtain ⟨hx, hxs⟩ := List.pairwise_cons.mp h
    by_cases hc : key x ≤ key r
    · rw [if_pos hc]
      refine List.pairwise_cons.mpr ⟨?_, h⟩
      intro y hy
      rcases List.mem_cons.mp hy with rfl | hy
      · exact hc
      · exact le_trans (hx y hy) hc
    · rw [if_neg hc]
      refine List.pairwise_cons.mpr ⟨?_, ih hxs⟩
      intro y hy
      rcases List.mem_cons.mp ((insertByUploadedDesc_perm key r xs).mem_iff.mp hy) with rfl | hy2
      · omega
      · exact hx y hy2

theorem sortByKeyDesc_pairwise {α : Type} (key : α → Nat) (l : List α) :
    (sortByKeyDesc key l).Pairwise (fun a b => key b ≤ key a) := by
  induction l with
  | nil => simp [sortByKeyDesc]
  | cons x xs ih =>
    rw [sortByKeyDesc]
    exact insertByUploadedDesc_pairwise key x _ ih

theorem map_isEmpty {α β : Type} (f : α → β) (l : List α) :
    (l.map f).isEmpty = l.isEmpty := by
  cases l <;> rfl

theorem map_some_filter_isSome {α : Type} (l : List α) :
    (l.map some).filter Option.isSome = l.map some := by
  induction l with
  | nil => rfl
  | cons x xs ih => simp [List.filter_cons, ih]

theorem map_some_filterMap_id {α : Type} (l : List α) :
    (l.map some).filterMap id = l := by
  induction l with
  | nil => rfl
  | cons x xs ih => simp [List.filterMap_cons, ih]

/-- The group row of one image, characterised against the spec-side
predicates: the image survives iff specImagePasses, and (when the category
filter passes) the non-NULL slot count and slot languages are those of the
image's labels that survive the label-level filters. -/
theorem imageGroup_chars (db : DB) (c lang s : Option String) (i : ImageRow) :
    ((imageGroup db c lang s i).isEmpty = !specImagePasses db c lang s i) ∧
    (specCategoryOk c i = true →
      ((imageGroup db c lang s i).filter Option.isSome).length =
        (db.labels.filter (fun l => decide (l.image_id = i.id) &&
          specLabelSurvives lang s i l)).length ∧
      ((imageGroup db c lang s i).filterMap id).map LabelRow.language =
        (db.labels.filter (fun l => decide (l.image_id = i.id) &&
          specLabelSurvives lang s i l)).map LabelRow.language) := by
  cases hls : db.labels.filter (fun l => l.image_id = i.id) with
  | nil =>
    have hgrp : imageGroup db c lang s i =
        if whereClause c lang s i none = true then [none] else [] := by
      unfold imageGroup joinSlots
      rw [hls]
      by_cases h : whereClause c lang s i none = true <;> simp [h]
    have hfl : db.labels.filter (fun l => decide (l.image_id = i.id) &&
        specLabelSurvives lang s i l) = [] := by
      rw [List.filter_eq_nil_iff]
      intro a ha hcon
      rw [Bool.and_eq_true] at hcon
      have hmem : a ∈ db.labels.filter (fun l => l.image_id = i.id) :=
        List.mem_filter.mpr ⟨ha, hcon.1⟩
      rw [hls] at hmem
      simp at hmem
    refine ⟨?_, fun _ => ?_⟩
    · rw [hgrp, whereClause_none]
      unfold specImagePasses
      rw [hls]
      cases hA : specCategoryOk c i <;> cases hB : lang.isNone <;>
        cases hC : (match s with | none => true | some str => specTitleDescMatch i str) <;>
        simp [hA, hB, hC]
    · rw [hgrp, hfl]
      constructor
      · by_cases h : whereClause c lang s i none = true <;> simp [h]
      · by_cases h : whereClause c lang s i none = true <;> simp [h]
  | cons x xs =>
    have hjoin : joinSlots db.labels i = (x :: xs).map some := by
      unfold joinSlots
      rw [hls]
    have hgrp : imageGroup db c lang s i =
        ((x :: xs).filter (fun l => whereClause c lang s i (some l))).map some := by
      unfold imageGroup
      rw [hjoin, List.filter_map]
      rfl
    by_cases hA : specCategoryOk c i = true
    · have hfeq : (x :: xs).filter (fun l => whereClause c lang s i (some l)) =
          (x :: xs).filter (specLabelSurvives lang s i) := by
        apply List.filter_congr
        intro l _
        rw [whereClause_some, hA, Bool.true_and]
      have hcomb : (x :: xs).filter (specLabelSurvives lang s i) =
          db.labels.filter (fun l => decide (l.image_id = i.id) &&
            specLabelSurvives lang s i l) := by
        rw [← hls, List.filter_filter]
        exact List.filter_congr (fun l _ => Bool.and_comm _ _)
      refine ⟨?_, fun _ => ?_⟩
      · rw [hgrp, hfeq]
        unfold specImagePasses
        rw [hls, hA, Bool.true_and]
        rw [map_isEmpty, filter_isEmpty_eq_not_any]
        simp
      · rw [hgrp, hfeq, hcomb]
        constructor
        · rw [map_some_filter_isSome, List.length_map]
        · rw [map_some_filterMap_id]
    · have hAf : specCategoryOk c i = false := by simpa using hA
      have hfeq : (x :: xs).filter (fun l => whereClause c lang s i (some l)) = [] := by
        rw [List.filter_eq_nil_iff]
        intro a _ hcon
        rw [whereClause_some, hAf] at hcon
        simp at hcon
      refine ⟨?_, fun hcat => ?_⟩
      · rw [hgrp, hfeq]
        unfold specImagePasses
        rw [hAf]
        simp
      · rw [hcat] at hAf
        simp at hAf

/-- C4 (amended): with all supplied filters non-empty, get_images returns
the images satisfying specImagePasses (category exact; at least one label
surviving the per-label language/free-text tests, where free text is SQL
LIKE matching; images with no labels only when no language filter is given
and the image columns match the free text), newest-first, capped at limit
(all matching images appear when limit covers the table), and each row is
annotated with the count and deduplicated language list of the labels that
survive the label-level filters — which equal the image's total label count
and full language set when no language and no search filter is supplied. -/
theorem get_images_query_spec (db : DB) (category language search : Option String)
    (limit : Nat) (hc : category ≠ some "") (hl : language ≠ some "")
    (hs : search ≠ some "") :
    (get_images db category language search limit).length ≤ limit ∧
    (get_images db category language search limit).Pairwise
      (fun a b => b.image.uploaded_at ≤ a.image.uploaded_at) ∧
    (∀ r ∈ get_images db category language search limit,
      r.image ∈ db.images ∧
      specImagePasses db category language search r.image = true ∧
      r.total_labels = (db.labels.filter (fun l => decide (l.image_id = r.image.id) &&
        specLabelSurvives language search r.image l)).length ∧
      r.languages = ((db.labels.filter (fun l => decide (l.image_id = r.image.id) &&
        specLabelSurvives language search r.image l)).map LabelRow.language).dedup ∧
      (language = none → search = none →
        r.total_labels = countLabelsFor db.labels r.image.id ∧
        r.languages = ((db.labels.filter (fun l => l.image_id = r.image.id)).map
          LabelRow.language).dedup)) ∧
    (db.images.length ≤ limit →
      ∀ i ∈ db.images, specImagePasses db category language search i = true →
        ∃ r ∈ get_images db category language search limit, r.image = i) := by
  have hga : get_images db category language search limit =
      (sortByKeyDesc (fun r : ImageResult => r.image.uploaded_at)
        (db.images.filterMap (fun i =>
          if (imageGroup db category language search i).isEmpty then none
          else some (imageResultOf db category language search i)))).take limit := by
    simp only [get_images]
    rw [activeFilter_eq_self hc, activeFilter_eq_self hl, activeFilter_eq_self hs]
  refine ⟨?_, ?_, ?_, ?_⟩
  · rw [hga]
    exact List.length_take_le _ _
  · rw [hga]
    exact List.Pairwise.sublist (List.take_sublist _ _)
      (sortByKeyDesc_pairwise (fun r : ImageResult => r.image.uploaded_at) _)
  · intro r hr
    rw [hga] at hr
    have hr1 := List.Sublist.mem hr (List.take_sublist _ _)
    have hr2 := (sortByKeyDesc_perm (fun r : ImageResult => r.image.uploaded_at) _).mem_iff.mp hr1
    obtain ⟨i, hi, hf⟩ := List.mem_filterMap.mp hr2
    by_cases hemp : (imageGroup db category language search i).isEmpty = true
    · rw [if_pos hemp] at hf
      exact absurd hf (by simp)
    · rw [if_neg hemp] at hf
      simp only [Option.some.injEq] at hf
      obtain ⟨hchars1, hchars2⟩ := imageGroup_chars db category language search i
      have hpass : specImagePasses db category language search i = true := by
        by_contra hp
        have hp2 : specImagePasses db category language search i = false := by simpa using hp
        rw [hp2] at hchars1
        exact hemp (by rw [hchars1]; rfl)
      have hcat : specCategoryOk category i = true := by
        have hp3 := hpass
        unfold specImagePasses at hp3
        rw [Bool.and_eq_true] at hp3
        exact hp3.1
      obtain ⟨hcount, hlangs⟩ := hchars2 hcat
      subst hf
      refine ⟨hi, hpass, hcount, congrArg List.dedup hlangs, ?_⟩
      intro hlang hsearch
      subst hlang hsearch
      have hsurv : db.labels.filter (fun l => decide (l.image_id = i.id) &&
          specLabelSurvives none none i l) =
          db.labels.filter (fun l => l.image_id = i.id) :=
        List.filter_congr (fun l _ => by simp [specLabelSurvives])
      constructor
      · show ((imageGroup db category none none i).filter Option.isSome).length = _
        rw [hcount]
        unfold countLabelsFor
        rw [hsurv]
        simp only [imageResultOf]
      · show (((imageGroup db category none none i).filterMap id).map
          LabelRow.language).dedup = _
        rw [congrArg List.dedup hlangs, hsurv]
        simp only [imageResultOf]
  · intro hlim i hi hpass
    obtain ⟨hchars1, -⟩ := imageGroup_chars db category language search i
    have hemp : (imageGroup db category language search i).isEmpty = false := by
      rw [hchars1, hpass]
      rfl
    have hmem : imageResultOf db category language search i ∈
        db.images.filterMap (fun i =>
          if (imageGroup db category language search i).isEmpty then none
          else some (imageResultOf db category language search i)) :=
      List.mem_filterMap.mpr ⟨i, hi, by rw [if_neg (by simp [hemp])]⟩
    have hlen : (sortByKeyDesc (fun r : ImageResult => r.image.uploaded_at)
        (db.images.filterMap (fun i =>
          if (imageGroup db category language search i).isEmpty then none
          else some (imageResultOf db category language search i)))).length ≤ limit := by
      rw [(sortByKeyDesc_perm (fun r : ImageResult => r.image.uploaded_at) _).length_eq]
      exact le_trans (List.length_filterMap_le _ _) hlim
    rw [hga, List.take_of_length_le hlen]
    exact ⟨_, (sortByKeyDesc_perm (fun r : ImageResult => r.image.uploaded_at) _).mem_iff.mpr
      hmem, rfl⟩

/-- Fixture for the C4 counterexample: one image with an English and a Hindi
label. -/
def queryCexDB : DB :=
  { initDB with
    images := [⟨"i1", "Cat", some "a cat", "Animals", some "p.png", "alice", 1, 2⟩]
    labels := [⟨1, "i1", "good cat", "en", "alice", 1⟩,
               ⟨2, "i1", "extra", "hi", "alice", 2⟩] }

unseal likeMatch in
/-- C4 counterexample: (a) with a language filter the returned row carries
total_labels 1 and languages ["en"], although the image's total label count
is 2 and its full language set is ["en", "hi"] — the WHERE clause filters
the joined label rows before grouping, so the annotation reflects only the
filtered labels; (b) combining the language filter "en" with the search
"extra" returns nothing although the image has a label in English and a
label whose text contains "extra" — no single label survives both filters,
refuting the claim's reading of the combined filters. -/
theorem get_images_claim_cex :
    (get_images queryCexDB none (some "en") none 50).map
      (fun r => (r.total_labels, r.languages)) = [(1, ["en"])] ∧
    countLabelsFor queryCexDB.labels "i1" = 2 ∧
    ((queryCexDB.labels.filter (fun l => l.image_id = "i1")).map
      LabelRow.language).dedup = ["en", "hi"] ∧
    queryCexDB.images.map ImageRow.id = ["i1"] ∧
    get_images queryCexDB none (some "en") (some "extra") 50 = [] ∧
    (∃ l ∈ queryCexDB.labels, l.image_id = "i1" ∧ l.language = "en") ∧
    (∃ l ∈ queryCexDB.labels, l.image_id = "i1" ∧
      sqlLike l.text (searchPattern "extra") = true) := by
  refine ⟨by decide, by decide, by decide, by decide, by decide, by decide, by decide⟩

/-- Witness for C4 at a concrete input. -/
theorem get_images_query_spec_w :
    (get_images queryCexDB none (some "en") none 50).length ≤ 50 ∧
    (∀ r ∈ get_images queryCexDB none (some "en") none 50,
      r.image ∈ queryCexDB.images ∧
      specImagePasses queryCexDB none (some "en") none r.image = true) :=
  ⟨(get_images_query_spec queryCexDB none (some "en") none 50
      (by decide) (by decide) (by decide)).1,
   fun r hr =>
     ⟨((get_images_query_spec queryCexDB none (some "en") none 50
        (by decide) (by decide) (by decide)).2.2.1 r hr).1,
      ((get_images_query_spec queryCexDB none (some "en") none 50
        (by decide) (by decide) (by decide)).2.2.1 r hr).2.1⟩⟩

end LabelIt
